import Mathlib

/-!
Verification of the asset-loading core (`src/amethyst_assets/src/asset.rs`):
the `AssetSpec` identity key, the shared `AssetFuture` wrapper, the `Context`
trait's default cache methods, and the map-backed cache referenced by the
`Context` documentation.
-/

namespace Amethyst

open Batteries

/-! ### Identity key: `AssetSpec` (asset.rs, lines 87-107) -/

/-- Modelled from the spec: `StoreId` is the "identifier of the originating
storage backend" (defined in the crate root, which is not under `src/`);
the spec requires only that it be comparable, hashable and totally ordered,
so it is modelled as a natural-number identifier. -/
abbrev StoreId := Nat

/-- The asset specifier (asset.rs, lines 92-100): accepted extensions,
logical name, and originating store, with derived structural
`Eq`/`Hash`/`Ord`/`PartialOrd` (field order: `exts`, `name`, `store`). -/
structure AssetSpec where
  exts : List String
  name : String
  store : StoreId
  deriving DecidableEq, Repr

/-- `AssetSpec::new` (asset.rs, lines 102-107): builds the record from the
given parameters, in the argument order `name`, `exts`, `store`. -/
def AssetSpec.new (name : String) (exts : List String) (store : StoreId) : AssetSpec :=
  ⟨exts, name, store⟩

/-- Lexicographic comparison of lists by an element comparator: the embedding
of Rust's derived `Ord` on slices (shorter prefix compares as less). -/
def lexCmp (c : α → α → Ordering) : List α → List α → Ordering
  | [], [] => .eq
  | [], _ :: _ => .lt
  | _ :: _, [] => .gt
  | x :: xs, y :: ys => (c x y).then (lexCmp c xs ys)

instance listStringOrd : Ord (List String) where
  compare := lexCmp compare

/-- The derived `Ord`/`PartialOrd` of `AssetSpec` (asset.rs, line 92):
field-wise lexicographic comparison in declaration order
(`exts`, then `name`, then `store`). -/
def AssetSpec.cmp : AssetSpec → AssetSpec → Ordering :=
  compareLex (compareOn fun s => s.exts)
    (compareLex (compareOn fun s => s.name) (compareOn fun s => s.store))

/-- The non-strict order induced by the derived comparison. -/
def AssetSpec.le (a b : AssetSpec) : Prop := AssetSpec.cmp a b ≠ .gt

/-- A word-wise accumulation hash over a string, reduced modulo `2 ^ 64`:
stands in for the derived `Hash` on the `name` field. -/
def strHash (s : String) : Nat :=
  s.foldl (fun h ch => (h * 1099511628211 + ch.toNat) % 2 ^ 64) 14695981039346656037

/-- Hash of the extension list, folding the per-string hashes. -/
def listStrHash (l : List String) : Nat :=
  l.foldl (fun h s => (h * 1099511628211 + strHash s) % 2 ^ 64) 14695981039346656037

/-- The derived `Hash` of `AssetSpec` (asset.rs, line 92): a pure function of
the three fields `exts`, `name` and `store`, nothing else. -/
def AssetSpec.hashVal (s : AssetSpec) : Nat :=
  (listStrHash s.exts * 31 + strHash s.name * 17 + s.store) % 2 ^ 64

/-! ### Errors: `BoxedErr` and `SharedAssetError` (crate root, used at asset.rs line 77) -/

/-- Modelled from the spec: `BoxedErr` is the crate's boxed, type-erased error
value and `SharedAssetError` the "secondary error kind that signals shared
future observation" (both live in the crate root, which is not under `src/`).
The constructor `sharedAsset e` embeds
`BoxedErr(Box::new(SharedAssetError::from(e)))`, preserving the original
error `e` so its description and cause chain remain inspectable. -/
inductive BoxedErr where
  | boxed (description : String)
  | sharedAsset (original : BoxedErr)
  deriving DecidableEq, Repr

/-! ### Shared future wrapper: `AssetFuture` (asset.rs, lines 29-85) -/

instance {E A : Type} [DecidableEq E] [DecidableEq A] : DecidableEq (Except E A) := fun x y =>
  match x, y with
  | .ok a, .ok b =>
    if h : a = b then .isTrue (by rw [h]) else .isFalse (by intro hc; cases hc; exact h rfl)
  | .error a, .error b =>
    if h : a = b then .isTrue (by rw [h]) else .isFalse (by intro hc; cases hc; exact h rfl)
  | .ok _, .error _ => .isFalse (by intro hc; cases hc)
  | .error _, .ok _ => .isFalse (by intro hc; cases hc)

/-- Poll outcome of the shared computation, as futures' `Async` of
`SharedItem`/`SharedError`. -/
inductive SPoll (A E : Type) where
  | notReady
  | ready (item : A)
  | failed (e : E)
  deriving DecidableEq, Repr

/-- Tag of the shared cell: `pending remaining result` is an in-flight
computation that needs `remaining + 1` further polls and then yields
`result`; `done r` is a computation whose outcome `r` has been cached in the
shared state. -/
inductive SharedStatus (A E : Type) where
  | pending (remaining : Nat) (result : Except E A)
  | done (r : Except E A)
  deriving DecidableEq, Repr

/-- Modelled from the spec: the shared, type-erased computation behind
`AssetFuture` — futures' `Shared`, external to the repository — is "an
explicit reference-counted cell holding a tagged state {Pending(task handle),
Ready(value), Failed(error)}" (spec, section 9). `completions` counts how
many times the underlying computation has been run to completion, and
`refCount` counts the live clones sharing the one cell. -/
structure SharedFut (A E : Type) where
  status : SharedStatus A E
  completions : Nat
  refCount : Nat
  deriving DecidableEq, Repr

/-- Non-blocking read of the shared cell (futures' `Shared::peek`): reports
the cached outcome if the computation has completed, `none` otherwise, and
returns the cell unchanged — it never drives the computation. -/
def SharedFut.peek (s : SharedFut A E) : Option (Except E A) × SharedFut A E :=
  match s.status with
  | .done r => (some r, s)
  | .pending _ _ => (none, s)

/-- Polling the shared cell (futures' `Shared::poll`): a completed cell
reports its cached outcome without re-running anything; an in-flight cell is
driven one step, and on its final step the outcome is cached in the shared
state and `completions` is bumped. -/
def SharedFut.poll (s : SharedFut A E) : SPoll A E × SharedFut A E :=
  match s.status with
  | .done (.ok a) => (.ready a, s)
  | .done (.error e) => (.failed e, s)
  | .pending (n + 1) r => (.notReady, ⟨.pending n r, s.completions, s.refCount⟩)
  | .pending 0 (.ok a) => (.ready a, ⟨.done (.ok a), s.completions + 1, s.refCount⟩)
  | .pending 0 (.error e) => (.failed e, ⟨.done (.error e), s.completions + 1, s.refCount⟩)

/-- Cloning the shared handle (futures' `Shared::clone`): bumps the reference
count of the one cell; the status and the execution count are untouched. -/
def SharedFut.clone (s : SharedFut A E) : SharedFut A E :=
  ⟨s.status, s.completions, s.refCount + 1⟩

/-- The shared future for an asset (asset.rs, line 30):
`AssetFuture<A>(Shared<Box<Future<Item = A, Error = BoxedErr>>>)`. -/
abbrev AssetFuture (A : Type) : Type := SharedFut A BoxedErr

/-- `AssetFuture::from_future` (asset.rs, lines 32-41): boxes the wrapped
computation and shares it. The fresh cell is pending with the whole
computation (`remaining + 1` polls producing `result`) still to run, has one
owner, and has executed nothing yet. -/
def AssetFuture.from_future (A : Type) (remaining : Nat) (result : Except BoxedErr A) :
    AssetFuture A :=
  ⟨.pending remaining result, 0, 1⟩

/-- `AssetFuture::peek` (asset.rs, lines 51-58): delegates to the shared
cell's `peek`. -/
def AssetFuture.peek (s : AssetFuture A) : Option (Except BoxedErr A) × AssetFuture A :=
  SharedFut.peek s

/-- Result of `AssetFuture::poll` (asset.rs, lines 66-80):
`Poll<A, BoxedErr>`. -/
inductive APoll (A : Type) where
  | notReady
  | ready (a : A)
  | err (e : BoxedErr)
  deriving DecidableEq, Repr

/-- `AssetFuture::poll` (asset.rs, lines 73-79): polls the shared cell;
`Ok(Async::NotReady)` passes through, `Ok(Async::Ready(asset))` yields a
clone of the shared item (pure values, so the value itself), and `Err(err)`
is wrapped as `BoxedErr(Box::new(SharedAssetError::from(err)))`. -/
def AssetFuture.poll (s : AssetFuture A) : APoll A × AssetFuture A :=
  match SharedFut.poll s with
  | (.notReady, t) => (.notReady, t)
  | (.ready a, t) => (.ready a, t)
  | (.failed e, t) => (.err (.sharedAsset e), t)

/-- `Clone for AssetFuture` (asset.rs, lines 60-64): clones the shared
handle. -/
def AssetFuture.clone (s : AssetFuture A) : AssetFuture A :=
  SharedFut.clone s

/-- The state after one `poll` of the future. -/
def AssetFuture.pollState (s : AssetFuture A) : AssetFuture A :=
  (AssetFuture.poll s).2

/-- An observation step a holder of some clone may perform on the shared
future. -/
inductive FutOp where
  | pollO
  | peekO
  | cloneO
  deriving DecidableEq, Repr

/-- Apply one observation step to the shared cell (all clones share it). -/
def AssetFuture.applyOp (s : AssetFuture A) : FutOp → AssetFuture A
  | .pollO => (AssetFuture.poll s).2
  | .peekO => (AssetFuture.peek s).2
  | .cloneO => AssetFuture.clone s

/-- Apply a sequence of observation steps, oldest first. -/
def AssetFuture.applyOps (s : AssetFuture A) (ops : List FutOp) : AssetFuture A :=
  ops.foldl AssetFuture.applyOp s

/-! ### The `Context` trait's default cache methods (asset.rs, lines 109-163) -/

/-- Default body of `Context::cache` (asset.rs, line 138): `{}` — the call
returns without touching any context state. Modelled as a state transformer
over an arbitrary context-state type `σ` caching futures of type `F`. -/
def Context.cacheDefault (σ F : Type) (st : σ) (_spec : AssetSpec) (_asset : F) : σ :=
  st

/-- Default body of `Context::retrieve` (asset.rs, lines 143-145): always
`None`, whatever the state and the spec. -/
def Context.retrieveDefault (σ F : Type) (_st : σ) (_spec : AssetSpec) : Option F :=
  none

/-- Default body of `Context::clear` (asset.rs, line 159): `{}`. -/
def Context.clearDefault (σ : Type) (st : σ) : σ :=
  st

/-- Default body of `Context::clear_all` (asset.rs, line 162): `{}`. -/
def Context.clearAllDefault (σ : Type) (st : σ) : σ :=
  st

/-! ### The map-backed cache behind a caching context

The repository's `Cache` type — pointed to by the documentation of
`Context::retrieve` ("For a basic implementation of a cache, please take a
look at the `Cache` type") — is not under `src/`, so it is modelled from the
spec below. -/

/-- Modelled from the spec: the state of a caching context is a map from
`AssetSpec` to the cached shared future, here an association list with the
newest entry first. -/
def CacheState (F : Type) : Type :=
  List (AssetSpec × F)

/-- Modelled from the spec: `cache(spec, future)` "records the given future
as the authoritative in-flight/ready handle for `spec`"; the newest entry
shadows older ones, so the "last writer for a spec wins". -/
def CacheState.cacheOp (st : CacheState F) (spec : AssetSpec) (f : F) : CacheState F :=
  (spec, f) :: st

/-- Modelled from the spec: `retrieve(spec)` "returns the cached future for
`spec` if present, else nothing", and never constructs anything itself. -/
def CacheState.retrieveOp (st : CacheState F) (spec : AssetSpec) : Option F :=
  List.lookup spec st

/-- Modelled from the spec: `update(spec, future)` swaps the cached entry so
later `retrieve` calls see the new future. -/
def CacheState.updateOp (st : CacheState F) (spec : AssetSpec) (f : F) : CacheState F :=
  (spec, f) :: st.filter fun e => !(e.1 == spec)

/-- Modelled from the spec: `clear()` is an eviction hint that may drop some
entries (the policy is a free design choice, so the evicted specs are a
parameter). -/
def CacheState.clearOp (st : CacheState F) (victims : List AssetSpec) : CacheState F :=
  st.filter fun e => !(victims.contains e.1)

/-- Modelled from the spec: `clear_all()` drops everything unconditionally. -/
def CacheState.clearAllOp (_st : CacheState F) : CacheState F :=
  ([] : CacheState F)

/-- A mutating call a loader may make on a caching context. -/
inductive CtxOp (F : Type) where
  | cacheC (spec : AssetSpec) (f : F)
  | updateC (spec : AssetSpec) (f : F)
  | clearC (victims : List AssetSpec)
  | clearAllC

/-- Apply one mutating call to the cache state. -/
def CacheState.applyOp (st : CacheState F) : CtxOp F → CacheState F
  | .cacheC spec f => st.cacheOp spec f
  | .updateC spec f => st.updateOp spec f
  | .clearC victims => st.clearOp victims
  | .clearAllC => st.clearAllOp

/-- Apply a sequence of mutating calls, oldest first. -/
def CacheState.applyOps (st : CacheState F) (ops : List (CtxOp F)) : CacheState F :=
  ops.foldl CacheState.applyOp st

/-- Does this call leave the entry for spec `s` alone? `cache`/`update` for a
different spec do; `clear` and `clear_all` may evict `s`, and `cache`/`update`
for `s` itself overwrite it. -/
def CtxOp.leavesAlone (s : AssetSpec) : CtxOp F → Bool
  | .cacheC spec _ => !(spec == s)
  | .updateC spec _ => !(spec == s)
  | .clearC _ => false
  | .clearAllC => false

/-! ### Component attachment (asset.rs, lines 43-49) -/

/-- The storage strategies offered by the entity-component library. -/
inductive StorageKind where
  | denseVec
  | vec
  | hashMap
  deriving DecidableEq, Repr

/-- Modelled from the spec: the external `specs::Component` contract — a type
is attachable as a component when it names a storage strategy. -/
class ComponentC (α : Type) where
  storage : StorageKind

/-- `impl<A> Component for AssetFuture<A> where A: Component` (asset.rs,
lines 43-49): whenever the item type is attachable, the future is too, and
its storage is `DenseVecStorage<Self>`. -/
instance instAssetFutureComponent (A : Type) [ComponentC A] : ComponentC (AssetFuture A) :=
  ⟨.denseVec⟩

/-! ### Concrete sample data for the closed instantiations -/

/-- A concrete spec. -/
def sampleSpec : AssetSpec := AssetSpec.new "teapot" ["obj"] 0

/-- A second concrete spec, differing from `sampleSpec` in every field. -/
def sampleSpec2 : AssetSpec := AssetSpec.new "skybox" ["png"] 1

/-- A fresh pending future that will resolve to `42` after two polls. -/
def sampleFut : AssetFuture Nat := AssetFuture.from_future Nat 1 (Except.ok 42)

/-- A shared future whose computation has already failed. -/
def sampleFailedFut : AssetFuture Nat := ⟨.done (.error (.boxed "io error")), 1, 1⟩

theorem lexCmp_swap {c : α → α → Ordering} [OrientedCmp c] :
    ∀ xs ys : List α, (lexCmp c xs ys).swap = lexCmp c ys xs
  | [], [] => rfl
  | [], _ :: _ => rfl
  | _ :: _, [] => rfl
  | x :: xs, y :: ys => by
    show ((c x y).then (lexCmp c xs ys)).swap = (c y x).then (lexCmp c ys xs)
    rw [Ordering.swap_then, OrientedCmp.symm x y, lexCmp_swap xs ys]

instance {c : α → α → Ordering} [OrientedCmp c] : OrientedCmp (lexCmp c) where
  symm x y := lexCmp_swap x y

theorem lexCmp_le_trans {c : α → α → Ordering} [TransCmp c] :
    ∀ xs ys zs : List α,
      lexCmp c xs ys ≠ .gt → lexCmp c ys zs ≠ .gt → lexCmp c xs zs ≠ .gt
  | [], _, [] => fun _ _ => by simp [lexCmp]
  | [], _, _ :: _ => fun _ _ => by simp [lexCmp]
  | _ :: _, [], _ => fun h1 _ => absurd rfl h1
  | _ :: _, _ :: _, [] => fun _ h2 => absurd rfl h2
  | x :: xs, y :: ys, z :: zs => fun h1 h2 => by
    simp only [lexCmp, ne_eq, Ordering.then_eq_gt, not_or, not_and] at h1 h2 ⊢
    refine ⟨TransCmp.le_trans h1.1 h2.1, fun hxz => ?_⟩
    match hxy : c x y with
    | .gt => exact absurd hxy h1.1
    | .lt =>
      have hlt : c x z = .lt := TransCmp.lt_le_trans hxy h2.1
      rw [hxz] at hlt
      exact nomatch hlt
    | .eq =>
      have hyz : c y z = .eq := (TransCmp.cmp_congr_left hxy).symm.trans hxz
      exact lexCmp_le_trans xs ys zs (h1.2 hxy) (h2.2 hyz)

instance {c : α → α → Ordering} [TransCmp c] : TransCmp (lexCmp c) where
  le_trans h1 h2 := lexCmp_le_trans _ _ _ h1 h2

theorem lexCmp_eq_eq {c : α → α → Ordering} (hc : ∀ x y, c x y = .eq ↔ x = y) :
    ∀ xs ys : List α, lexCmp c xs ys = .eq ↔ xs = ys
  | [], [] => by simp [lexCmp]
  | [], _ :: _ => by simp [lexCmp]
  | _ :: _, [] => by simp [lexCmp]
  | x :: xs, y :: ys => by
    simp [lexCmp, Ordering.then_eq_eq, hc x y, lexCmp_eq_eq hc xs ys]

instance : TransOrd (List String) :=
  inferInstanceAs (TransCmp (lexCmp compare))

theorem string_compare_eq_eq {x y : String} : compare x y = .eq ↔ x = y :=
  BEqCmp.cmp_iff_eq

instance : TransCmp AssetSpec.cmp :=
  inferInstanceAs (TransCmp (compareLex (compareOn fun s : AssetSpec => s.exts)
    (compareLex (compareOn fun s : AssetSpec => s.name)
      (compareOn fun s : AssetSpec => s.store))))

theorem assetSpec_cmp_eq_iff {a b : AssetSpec} : AssetSpec.cmp a b = .eq ↔ a = b := by
  cases a with
  | mk ae an as =>
    cases b with
    | mk be bn bs =>
      show (lexCmp compare ae be).then ((compare an bn).then (compare as bs)) = .eq ↔ _
      simp [Ordering.then_eq_eq, lexCmp_eq_eq (fun x y => string_compare_eq_eq) ae be,
        string_compare_eq_eq, Nat.compare_eq_eq, and_assoc]

theorem lookup_filter_ne {F : Type} (s s' : AssetSpec) (hne : s' ≠ s) (p : AssetSpec × F → Bool)
    (hp : ∀ e : AssetSpec × F, e.1 = s → p e = true) :
    ∀ st : List (AssetSpec × F), List.lookup s (st.filter p) = List.lookup s st
  | [] => rfl
  | (k, v) :: st => by
    by_cases hk : k = s
    · rw [List.filter_cons_of_pos (hp (k, v) hk)]
      simp [List.lookup, hk, lookup_filter_ne s s' hne p hp st]
    · rw [List.filter_cons]
      have hks : (s == k) = false := by
        simp only [beq_eq_false_iff_ne, ne_eq]
        exact fun h => hk h.symm
      by_cases hpk : p (k, v) = true
      · simp only [hpk, if_true]
        simp [List.lookup, hks, lookup_filter_ne s s' hne p hp st]
      · simp only [hpk, if_false, Bool.false_eq_true]
        simp [List.lookup, hks, lookup_filter_ne s s' hne p hp st]

theorem retrieveOp_applyOp {F : Type} (st : CacheState F) (s : AssetSpec) (f : F) (op : CtxOp F)
    (hf : st.retrieveOp s = some f) (hop : op.leavesAlone s = true) :
    (st.applyOp op).retrieveOp s = some f := by
  cases op with
  | cacheC spec g =>
    simp only [CtxOp.leavesAlone, Bool.not_eq_eq_eq_not, Bool.not_true,
      beq_eq_false_iff_ne, ne_eq] at hop
    have : (s == spec) = false := by
      simp only [beq_eq_false_iff_ne, ne_eq]
      exact fun h => hop h.symm
    simpa [CacheState.applyOp, CacheState.cacheOp, CacheState.retrieveOp, List.lookup, this]
      using hf
  | updateC spec g =>
    simp only [CtxOp.leavesAlone, Bool.not_eq_eq_eq_not, Bool.not_true,
      beq_eq_false_iff_ne, ne_eq] at hop
    have hbeq : (s == spec) = false := by
      simp only [beq_eq_false_iff_ne, ne_eq]
      exact fun h => hop h.symm
    have hrest := lookup_filter_ne (F := F) s spec hop (fun e => !(e.1 == spec))
      (fun e he => by simp [he, Ne.symm hop]) st
    simp only [CacheState.applyOp, CacheState.updateOp, CacheState.retrieveOp, List.lookup, hbeq]
    rw [hrest]
    exact hf
  | clearC victims => exact absurd hop (by simp [CtxOp.leavesAlone])
  | clearAllC => exact absurd hop (by simp [CtxOp.leavesAlone])

theorem retrieveOp_applyOps {F : Type} (s : AssetSpec) (f : F) :
    ∀ (ops : List (CtxOp F)) (st : CacheState F), st.retrieveOp s = some f →
      (∀ op ∈ ops, op.leavesAlone s = true) →
      (st.applyOps ops).retrieveOp s = some f
  | [], _, hf, _ => hf
  | op :: ops, st, hf, hops =>
    retrieveOp_applyOps s f ops (st.applyOp op)
      (retrieveOp_applyOp st s f op hf (hops op (by simp)))
      (fun o ho => hops o (by simp [ho]))

theorem retrieveOp_cacheOp {F : Type} (st : CacheState F) (s : AssetSpec) (f : F) :
    (st.cacheOp s f).retrieveOp s = some f := by
  simp [CacheState.cacheOp, CacheState.retrieveOp, List.lookup]

/-! ### Lemmas about the shared future -/

theorem clone_fields {A : Type} (s : AssetFuture A) :
    (AssetFuture.clone s).status = s.status
    ∧ (AssetFuture.clone s).completions = s.completions
    ∧ (AssetFuture.clone s).refCount = s.refCount + 1 :=
  ⟨rfl, rfl, rfl⟩

theorem poll_done_ok {A : Type} (s : AssetFuture A) (v : A)
    (h : s.status = .done (.ok v)) : AssetFuture.poll s = (.ready v, s) := by
  cases s with
  | mk st cm rc =>
    cases h
    rfl

theorem poll_done_error {A : Type} (s : AssetFuture A) (e : BoxedErr)
    (h : s.status = .done (.error e)) :
    AssetFuture.poll s = (.err (.sharedAsset e), s) := by
  cases s with
  | mk st cm rc =>
    cases h
    rfl

theorem peek_done {A : Type} (s : AssetFuture A) (r : Except BoxedErr A)
    (h : s.status = .done r) : AssetFuture.peek s = (some r, s) := by
  cases s with
  | mk st cm rc =>
    cases h
    rfl

theorem peek_state_eq {A : Type} (s : AssetFuture A) : (AssetFuture.peek s).2 = s := by
  cases s with
  | mk st cm rc =>
    cases st <;> rfl

theorem pollState_done {A : Type} (s : AssetFuture A) (r : Except BoxedErr A)
    (h : s.status = .done r) : AssetFuture.pollState s = s := by
  cases r with
  | ok v => rw [AssetFuture.pollState, poll_done_ok s v h]
  | error e => rw [AssetFuture.pollState, poll_done_error s e h]

theorem pollState_resolves {A : Type} (r : Except BoxedErr A) :
    ∀ (rem : Nat) (s : AssetFuture A), s.status = .pending rem r →
      (AssetFuture.pollState^[rem + 1] s).status = .done r
  | 0, s, h => by
    cases s with
    | mk st cm rc =>
      cases h
      cases r with
      | ok v => rfl
      | error e => rfl
  | rem + 1, s, h => by
    cases s with
    | mk st cm rc =>
      cases h
      rw [Function.iterate_succ_apply]
      exact pollState_resolves r rem ⟨.pending rem r, cm, rc⟩ rfl

/-- The execution-count invariant: the computation has run at most once, and
not at all while it is still pending. -/
def SharedInv {A : Type} (s : AssetFuture A) : Prop :=
  s.completions ≤ 1 ∧ ∀ rem r, s.status = .pending rem r → s.completions = 0

theorem sharedInv_applyOp {A : Type} (s : AssetFuture A) (op : FutOp)
    (h : SharedInv s) : SharedInv (s.applyOp op) := by
  cases op with
  | peekO =>
    rw [AssetFuture.applyOp, peek_state_eq]
    exact h
  | cloneO => exact ⟨h.1, h.2⟩
  | pollO =>
    cases s with
    | mk st cm rc =>
      cases st with
      | done r =>
        have : AssetFuture.applyOp ⟨.done r, cm, rc⟩ .pollO = ⟨.done r, cm, rc⟩ :=
          pollState_done _ r rfl
        rw [this]
        exact h
      | pending rem r =>
        have hz : cm = 0 := h.2 rem r rfl
        cases rem with
        | zero =>
          cases r with
          | ok v =>
            exact ⟨by simp [AssetFuture.applyOp, AssetFuture.poll, SharedFut.poll, hz],
              fun rem' r' hc => by simp [AssetFuture.applyOp, AssetFuture.poll,
                SharedFut.poll] at hc⟩
          | error e =>
            exact ⟨by simp [AssetFuture.applyOp, AssetFuture.poll, SharedFut.poll, hz],
              fun rem' r' hc => by simp [AssetFuture.applyOp, AssetFuture.poll,
                SharedFut.poll] at hc⟩
        | succ n =>
          exact ⟨by simp [AssetFuture.applyOp, AssetFuture.poll, SharedFut.poll, hz],
            fun rem' r' _ => by simp [AssetFuture.applyOp, AssetFuture.poll,
              SharedFut.poll, hz]⟩

theorem sharedInv_applyOps {A : Type} :
    ∀ (ops : List FutOp) (s : AssetFuture A), SharedInv s → SharedInv (s.applyOps ops)
  | [], _, h => h
  | op :: ops, s, h =>
    sharedInv_applyOps ops (s.applyOp op) (sharedInv_applyOp s op h)

/-! ### Claim C2 -/

/-- C2: two `AssetSpec` values are equal iff their `exts`, `name` and `store`
fields all are; equal specs hash identically; and the derived field-wise
comparison is a total order (reflexive, antisymmetric, transitive, total)
that deems two specs equivalent exactly when they are equal — no identity
beyond the fields. -/
theorem assetSpec_structural_identity (a b c : AssetSpec) :
    (a = b ↔ a.exts = b.exts ∧ a.name = b.name ∧ a.store = b.store)
    ∧ (a = b → a.hashVal = b.hashVal)
    ∧ (AssetSpec.cmp a b = .eq ↔ a = b)
    ∧ AssetSpec.le a a
    ∧ (AssetSpec.le a b → AssetSpec.le b a → a = b)
    ∧ (AssetSpec.le a b → AssetSpec.le b c → AssetSpec.le a c)
    ∧ (AssetSpec.le a b ∨ AssetSpec.le b a) := by
  refine ⟨?_, ?_, assetSpec_cmp_eq_iff, ?_, ?_, ?_, ?_⟩
  · cases a
    cases b
    simp
  · intro h
    rw [h]
  · show AssetSpec.cmp a a ≠ .gt
    intro hgt
    have hrefl : AssetSpec.cmp a a = Ordering.eq := OrientedCmp.cmp_refl
    rw [hrefl] at hgt
    exact nomatch hgt
  · intro h1 h2
    match e : AssetSpec.cmp a b with
    | .gt => exact absurd e h1
    | .eq => exact assetSpec_cmp_eq_iff.mp e
    | .lt => exact absurd (OrientedCmp.cmp_eq_gt.mpr e) h2
  · exact fun h1 h2 => TransCmp.le_trans h1 h2
  · match e : AssetSpec.cmp a b with
    | .lt =>
      refine Or.inl ?_
      show AssetSpec.cmp a b ≠ .gt
      rw [e]
      exact fun h => nomatch h
    | .eq =>
      refine Or.inl ?_
      show AssetSpec.cmp a b ≠ .gt
      rw [e]
      exact fun h => nomatch h
    | .gt =>
      refine Or.inr ?_
      show AssetSpec.cmp b a ≠ .gt
      intro hgt
      have hsymm : (AssetSpec.cmp a b).swap = AssetSpec.cmp b a := OrientedCmp.symm a b
      rw [← hsymm, e] at hgt
      exact nomatch hgt

/-- Closed instantiation of `assetSpec_structural_identity`. -/
theorem assetSpec_structural_identity_witness :
    (sampleSpec = sampleSpec2 ↔ sampleSpec.exts = sampleSpec2.exts
      ∧ sampleSpec.name = sampleSpec2.name ∧ sampleSpec.store = sampleSpec2.store)
    ∧ (sampleSpec = sampleSpec2 → sampleSpec.hashVal = sampleSpec2.hashVal)
    ∧ (AssetSpec.cmp sampleSpec sampleSpec2 = .eq ↔ sampleSpec = sampleSpec2)
    ∧ AssetSpec.le sampleSpec sampleSpec
    ∧ (AssetSpec.le sampleSpec sampleSpec2 → AssetSpec.le sampleSpec2 sampleSpec →
        sampleSpec = sampleSpec2)
    ∧ (AssetSpec.le sampleSpec sampleSpec2 → AssetSpec.le sampleSpec2 sampleSpec →
        AssetSpec.le sampleSpec sampleSpec)
    ∧ (AssetSpec.le sampleSpec sampleSpec2 ∨ AssetSpec.le sampleSpec2 sampleSpec) :=
  assetSpec_structural_identity sampleSpec sampleSpec2 sampleSpec

/-! ### Claim C10 -/

/-- C10: `AssetSpec::new(name, exts, store)` returns a spec whose fields are
exactly the given arguments, so two specs built by `new` are equal exactly
when the three arguments are pairwise equal. -/
theorem assetSpec_new_fields (n1 n2 : String) (e1 e2 : List String) (s1 s2 : StoreId) :
    ((AssetSpec.new n1 e1 s1).name = n1 ∧ (AssetSpec.new n1 e1 s1).exts = e1
      ∧ (AssetSpec.new n1 e1 s1).store = s1)
    ∧ (AssetSpec.new n1 e1 s1 = AssetSpec.new n2 e2 s2 ↔ e1 = e2 ∧ n1 = n2 ∧ s1 = s2) := by
  exact ⟨⟨rfl, rfl, rfl⟩, by simp [AssetSpec.new]⟩

/-- Closed instantiation of `assetSpec_new_fields`. -/
theorem assetSpec_new_fields_witness :
    ((AssetSpec.new "teapot" ["obj"] 0).name = "teapot"
      ∧ (AssetSpec.new "teapot" ["obj"] 0).exts = ["obj"]
      ∧ (AssetSpec.new "teapot" ["obj"] 0).store = 0)
    ∧ (AssetSpec.new "teapot" ["obj"] 0 = AssetSpec.new "skybox" ["png"] 1 ↔
        ["obj"] = ["png"] ∧ "teapot" = "skybox" ∧ (0 : StoreId) = 1) :=
  assetSpec_new_fields "teapot" "skybox" ["obj"] ["png"] 0 1

/-! ### Claim C3 -/

/-- C3: `peek` reports `Some(Ok(v))` when the shared computation has
completed successfully, `Some(Err(e))` when it has failed, and `None` while
it is unresolved; and — however many times it is called — it returns the
shared state unchanged, never starting or advancing the work. -/
theorem assetFuture_peek_nonforcing (A : Type) (s : AssetFuture A) (n : Nat) :
    ((AssetFuture.peek s).2 = s)
    ∧ ((fun t => (AssetFuture.peek t).2)^[n] s = s)
    ∧ (∀ v : A, (AssetFuture.peek s).1 = some (.ok v) ↔ s.status = .done (.ok v))
    ∧ (∀ e : BoxedErr, (AssetFuture.peek s).1 = some (.error e) ↔ s.status = .done (.error e))
    ∧ ((AssetFuture.peek s).1 = none ↔ ∃ rem r, s.status = .pending rem r) := by
  refine ⟨peek_state_eq s, Function.iterate_fixed (peek_state_eq s) n, ?_, ?_, ?_⟩
  · intro v
    cases s with
    | mk st cm rc =>
      cases st with
      | done r => cases r <;> simp [AssetFuture.peek, SharedFut.peek]
      | pending rem r => simp [AssetFuture.peek, SharedFut.peek]
  · intro e
    cases s with
    | mk st cm rc =>
      cases st with
      | done r => cases r <;> simp [AssetFuture.peek, SharedFut.peek]
      | pending rem r => simp [AssetFuture.peek, SharedFut.peek]
  · cases s with
    | mk st cm rc =>
      cases st with
      | done r => simp [AssetFuture.peek, SharedFut.peek]
      | pending rem r =>
        simp only [AssetFuture.peek, SharedFut.peek, true_iff]
        exact ⟨rem, r, rfl⟩

/-- Closed instantiation of `assetFuture_peek_nonforcing` at a pending
future. -/
theorem assetFuture_peek_nonforcing_witness :
    ((AssetFuture.peek sampleFut).2 = sampleFut)
    ∧ ((fun t => (AssetFuture.peek t).2)^[3] sampleFut = sampleFut)
    ∧ (∀ v : Nat, (AssetFuture.peek sampleFut).1 = some (.ok v) ↔
        sampleFut.status = .done (.ok v))
    ∧ (∀ e : BoxedErr, (AssetFuture.peek sampleFut).1 = some (.error e) ↔
        sampleFut.status = .done (.error e))
    ∧ ((AssetFuture.peek sampleFut).1 = none ↔ ∃ rem r, sampleFut.status = .pending rem r) :=
  assetFuture_peek_nonforcing Nat sampleFut 3

/-! ### Claim C4 -/

/-- C4: when the shared computation has failed with `e`, `poll` — on the
original handle or on any clone of it — returns the original failure wrapped
in the shared-observation error kind (`SharedAssetError` inside a
`BoxedErr`), the cached failure stays in the shared state untouched, and
every subsequent poll keeps returning that same wrapped failure. -/
theorem assetFuture_failure_wrapped (A : Type) (s : AssetFuture A) (e : BoxedErr) (n : Nat)
    (h : s.status = .done (.error e)) :
    AssetFuture.poll s = (.err (.sharedAsset e), s)
    ∧ AssetFuture.poll (AssetFuture.clone s) = (.err (.sharedAsset e), AssetFuture.clone s)
    ∧ AssetFuture.pollState^[n] s = s := by
  have hc : (AssetFuture.clone s).status = SharedStatus.done (.error e) := by
    rw [(clone_fields s).1, h]
  exact ⟨poll_done_error s e h, poll_done_error _ e hc,
    Function.iterate_fixed (pollState_done s _ h) n⟩

/-- Closed instantiation of `assetFuture_failure_wrapped` at a failed
future. -/
theorem assetFuture_failure_wrapped_witness :
    AssetFuture.poll sampleFailedFut
      = (.err (.sharedAsset (.boxed "io error")), sampleFailedFut)
    ∧ AssetFuture.poll (AssetFuture.clone sampleFailedFut)
      = (.err (.sharedAsset (.boxed "io error")), AssetFuture.clone sampleFailedFut)
    ∧ AssetFuture.pollState^[2] sampleFailedFut = sampleFailedFut :=
  assetFuture_failure_wrapped Nat sampleFailedFut (.boxed "io error") 2 rfl

/-! ### Claim C5 -/

/-- C5: a shared computation that resolves successfully to `v`: driving it to
completion caches `Ok(v)` in the shared state; afterwards `peek` reports `v`
both on the driven original and on a clone taken before resolution, and
`poll` on any handle over the resolved cell — original or clone — returns
`Ready` with the same value `v`. -/
theorem assetFuture_success_convergence (A : Type) (v : A) (rem : Nat) (s : AssetFuture A)
    (h : s.status = .pending rem (.ok v)) :
    ((AssetFuture.pollState^[rem + 1] s).status = .done (.ok v))
    ∧ ((AssetFuture.peek (AssetFuture.pollState^[rem + 1] s)).1 = some (.ok v))
    ∧ ((AssetFuture.peek (AssetFuture.pollState^[rem + 1] (AssetFuture.clone s))).1
        = some (.ok v))
    ∧ (∀ t : AssetFuture A, t.status = .done (.ok v) →
        AssetFuture.poll t = (.ready v, t)
        ∧ AssetFuture.poll (AssetFuture.clone t) = (.ready v, AssetFuture.clone t)) := by
  have h1 := pollState_resolves (Except.ok v) rem s h
  have hcs : (AssetFuture.clone s).status = SharedStatus.pending rem (.ok v) := by
    rw [(clone_fields s).1, h]
  have h2 := pollState_resolves (Except.ok v) rem (AssetFuture.clone s) hcs
  refine ⟨h1, ?_, ?_, fun t ht => ?_⟩
  · rw [peek_done _ _ h1]
  · rw [peek_done _ _ h2]
  · have hct : (AssetFuture.clone t).status = SharedStatus.done (.ok v) := by
      rw [(clone_fields t).1, ht]
    exact ⟨poll_done_ok t v ht, poll_done_ok _ v hct⟩

/-- Closed instantiation of `assetFuture_success_convergence`. -/
theorem assetFuture_success_convergence_witness :
    ((AssetFuture.pollState^[2] sampleFut).status = .done (.ok 42))
    ∧ ((AssetFuture.peek (AssetFuture.pollState^[2] sampleFut)).1 = some (.ok 42))
    ∧ ((AssetFuture.peek (AssetFuture.pollState^[2] (AssetFuture.clone sampleFut))).1
        = some (.ok 42))
    ∧ (∀ t : AssetFuture Nat, t.status = .done (.ok 42) →
        AssetFuture.poll t = (.ready 42, t)
        ∧ AssetFuture.poll (AssetFuture.clone t) = (.ready 42, AssetFuture.clone t)) :=
  assetFuture_success_convergence Nat 42 1 sampleFut rfl

/-! ### Claim C6 -/

/-- C6: starting from `from_future`, whatever sequence of polls, peeks and
clones the holders perform, the wrapped computation runs to completion at
most once; and `clone` only bumps the reference count of the one shared
cell — status and execution count are untouched, nothing is copied or
re-run. -/
theorem assetFuture_at_most_once (A : Type) (rem : Nat) (r : Except BoxedErr A)
    (ops : List FutOp) :
    ((AssetFuture.from_future A rem r).applyOps ops).completions ≤ 1
    ∧ (∀ s : AssetFuture A,
        (AssetFuture.clone s).status = s.status
        ∧ (AssetFuture.clone s).completions = s.completions
        ∧ (AssetFuture.clone s).refCount = s.refCount + 1) :=
  ⟨(sharedInv_applyOps ops (AssetFuture.from_future A rem r)
      ⟨Nat.zero_le 1, fun _ _ _ => rfl⟩).1,
    fun s => clone_fields s⟩

/-- Closed instantiation of `assetFuture_at_most_once`. -/
theorem assetFuture_at_most_once_witness :
    ((AssetFuture.from_future Nat 1 (Except.ok 42)).applyOps
      [.cloneO, .pollO, .peekO, .pollO, .pollO, .cloneO, .pollO]).completions ≤ 1
    ∧ (∀ s : AssetFuture Nat,
        (AssetFuture.clone s).status = s.status
        ∧ (AssetFuture.clone s).completions = s.completions
        ∧ (AssetFuture.clone s).refCount = s.refCount + 1) :=
  assetFuture_at_most_once Nat 1 (Except.ok 42)
    [.cloneO, .pollO, .peekO, .pollO, .pollO, .cloneO, .pollO]

/-! ### Claim C7 -/

/-- C7: the `Context` trait's default bodies are trivial — `cache` leaves the
context state untouched, `retrieve` returns `None`, and `clear` and
`clear_all` leave the state untouched — so a context that performs no caching
at all conforms to the trait. -/
theorem context_defaults_noop (σ F : Type) (st : σ) (s : AssetSpec) (f : F) :
    Context.cacheDefault σ F st s f = st
    ∧ Context.retrieveDefault σ F st s = (none : Option F)
    ∧ Context.clearDefault σ st = st
    ∧ Context.clearAllDefault σ st = st :=
  ⟨rfl, rfl, rfl, rfl⟩

/-- Closed instantiation of `context_defaults_noop`. -/
theorem context_defaults_noop_witness :
    Context.cacheDefault Nat (AssetFuture Nat) 5 sampleSpec sampleFut = 5
    ∧ Context.retrieveDefault Nat (AssetFuture Nat) 5 sampleSpec = none
    ∧ Context.clearDefault Nat 5 = 5
    ∧ Context.clearAllDefault Nat 5 = 5 :=
  context_defaults_noop Nat (AssetFuture Nat) 5 sampleSpec sampleFut

/-! ### Claim C1 -/

/-- C1, counterexample: the trait's default method bodies form a legitimate
context, and there `retrieve(s)` returns `None` — not the cached future —
even immediately after `cache(s, f)` was called, so the claim is false for
at least one context. -/
theorem cache_retrieve_default_counterexample :
    ¬ (Context.retrieveDefault Unit (AssetFuture Nat)
        (Context.cacheDefault Unit (AssetFuture Nat) () sampleSpec sampleFut) sampleSpec
      = some sampleFut) :=
  fun h => nomatch h

/-- C1 (amended): for a caching context that implements `cache`/`retrieve`
with the map-backed cache, once `cache(s, f)` has been called, every
subsequent `retrieve(s)` — after any interleaving of calls that do not
overwrite (`cache`/`update` for `s`) or evict (`clear`/`clear_all`) the
entry — returns the same shared future `f`, so all callers converge on one
shared future per spec. -/
theorem cache_then_retrieve_dedup (F : Type) (st : CacheState F) (s : AssetSpec) (f : F)
    (ops : List (CtxOp F)) (h : ∀ op ∈ ops, op.leavesAlone s = true) :
    ((st.cacheOp s f).applyOps ops).retrieveOp s = some f :=
  retrieveOp_applyOps s f ops (st.cacheOp s f) (retrieveOp_cacheOp st s f) h

/-- Closed instantiation of `cache_then_retrieve_dedup`: another spec is
cached in between, and retrieval still returns the originally cached
future. -/
theorem cache_then_retrieve_dedup_witness :
    ((CacheState.cacheOp ([] : CacheState (AssetFuture Nat)) sampleSpec sampleFut).applyOps
      [.cacheC sampleSpec2 sampleFailedFut]).retrieveOp sampleSpec = some sampleFut :=
  cache_then_retrieve_dedup (AssetFuture Nat) [] sampleSpec sampleFut
    [.cacheC sampleSpec2 sampleFailedFut] (by decide)

/-! ### Claim C8 -/

/-- C8, counterexample: in the map-backed caching context, after the failed
future has been cached for `sampleSpec`, a later `cache(sampleSpec, f')` —
which is none of `clear`, `clear_all` or `update` — makes
`retrieve(sampleSpec)` return the new future `f'` instead of the cached
failed one (last writer wins), so the frozen exception list is
incomplete. -/
theorem failed_future_recache_counterexample :
    (((CacheState.cacheOp ([] : CacheState (AssetFuture Nat)) sampleSpec
        sampleFailedFut).applyOps [.cacheC sampleSpec sampleFut]).retrieveOp sampleSpec
      = some sampleFut)
    ∧ ¬ (((CacheState.cacheOp ([] : CacheState (AssetFuture Nat)) sampleSpec
          sampleFailedFut).applyOps [.cacheC sampleSpec sampleFut]).retrieveOp sampleSpec
        = some sampleFailedFut) := by
  exact ⟨by decide, by decide⟩

/-- C8 (amended): for the map-backed caching context, a failed
`create_asset` result is cached exactly like a success: once the failed
future is cached for spec `s`, every subsequent `retrieve(s)` — as long as
no `cache`/`update` for `s` and no `clear`/`clear_all` intervenes — returns
that same failed future, whose poll keeps reporting the wrapped original
failure; re-attempting requires explicit invalidation or overwriting. -/
theorem failed_future_stays_cached (A : Type) (st : CacheState (AssetFuture A))
    (s : AssetSpec) (f : AssetFuture A) (e : BoxedErr) (ops : List (CtxOp (AssetFuture A)))
    (hfail : f.status = .done (.error e))
    (h : ∀ op ∈ ops, op.leavesAlone s = true) :
    ((st.cacheOp s f).applyOps ops).retrieveOp s = some f
    ∧ AssetFuture.poll f = (.err (.sharedAsset e), f) :=
  ⟨retrieveOp_applyOps s f ops (st.cacheOp s f) (retrieveOp_cacheOp st s f) h,
    poll_done_error f e hfail⟩

/-- Closed instantiation of `failed_future_stays_cached`. -/
theorem failed_future_stays_cached_witness :
    ((CacheState.cacheOp ([] : CacheState (AssetFuture Nat)) sampleSpec
        sampleFailedFut).applyOps
      [.cacheC sampleSpec2 sampleFut, .updateC sampleSpec2 sampleFut]).retrieveOp sampleSpec
      = some sampleFailedFut
    ∧ AssetFuture.poll sampleFailedFut
      = (.err (.sharedAsset (.boxed "io error")), sampleFailedFut) :=
  failed_future_stays_cached Nat [] sampleSpec sampleFailedFut (.boxed "io error")
    [.cacheC sampleSpec2 sampleFut, .updateC sampleSpec2 sampleFut] rfl (by decide)

/-! ### Claim C9 -/

/-- C9: whenever the item type `A` is attachable as a component, so is
`AssetFuture A` — via the instance `instAssetFutureComponent` — and the
storage the instance assigns is the dense indexable one
(`DenseVecStorage`). -/
theorem assetFuture_component_denseVec (A : Type) (inst : ComponentC A) :
    (@instAssetFutureComponent A inst).storage = StorageKind.denseVec :=
  rfl

/-- Closed instantiation of `assetFuture_component_denseVec`, with an item
type stored by a different strategy. -/
theorem assetFuture_component_denseVec_witness :
    (@instAssetFutureComponent Nat ⟨StorageKind.vec⟩).storage = StorageKind.denseVec :=
  assetFuture_component_denseVec Nat ⟨StorageKind.vec⟩

end Amethyst
